import Mathlib

/-!
Shallow embedding of the job-creation workspace packaging and polling
pipeline of the paperspace-node client:

* `machines/waitfor.js` — the state poller (`waitfor`);
* `lib/jobs/create.js` — home-directory expansion (`expandHomeDir`),
  recursive directory sizing (`directorySize`), the archive builder's
  entry selection and event handlers (`zipFunc`), and the upload size
  gate (`MAX_UPLOAD_SIZE` check around `method(create, ...)`).

Definitions are translated from the JavaScript source; theorems below
settle the specification's claims about them.
-/

namespace Paperspace

/-- JavaScript `String.prototype.toLowerCase()` on the ASCII alphabet, as
used by `('' + params.state).toLowerCase()`. -/
def toLowerCase (s : String) : String := ⟨s.data.map Char.toLower⟩

/-! ## State poller (`machines/waitfor.js`) -/

/-- `var INTERVAL = 5000; // ms` -/
def INTERVAL : Nat := 5000

/-- A machine record as returned by one poll query; only the fields the
poller inspects are carried. -/
structure Machine where
  id : String
  state : String
deriving DecidableEq, Repr

/-- Outcome of a single remote query inside the poll loop: the transport
either yields a machine record or an error. -/
inductive QueryResponse where
  | ok (m : Machine)
  | fail (e : String)
deriving DecidableEq, Repr

/-- Terminal status of a (finitely observed) poll run. -/
inductive PollResult where
  /-- `machine.state === targetState` held: `cb(null, machine)`. -/
  | matched (m : Machine)
  /-- the query callback received an error: `cb(err)`. -/
  | errored (e : String)
  /-- the supplied response trace ran out while a retry timer was still
  scheduled (the real loop would keep polling). -/
  | pending
deriving DecidableEq, Repr

/-- One poll run, given the lower-cased target state and the sequence of
responses the transport will produce.  Mirrors the `_cb` callback of
`waitfor`: an error is propagated at once; a record whose `state` equals
`targetState` resolves; otherwise a `setTimeout(..., INTERVAL)` schedules
the next query.  Returns the terminal status, the number of queries
issued, and the list of delays (ms) between consecutive queries. -/
def waitforLoop (targetState : String) :
    List QueryResponse → PollResult × Nat × List Nat
  | [] => (.pending, 0, [])
  | .fail e :: _ => (.errored e, 1, [])
  | .ok m :: rest =>
    if m.state = targetState then (.matched m, 1, [])
    else
      let r := waitforLoop targetState rest
      (r.1, r.2.1 + 1, INTERVAL :: r.2.2)

/-- Overall outcome of `waitfor`: either the input validation rejected the
desired state before any query, or the poll loop ran. -/
inductive WaitforOutcome where
  | invalidInput (msg : String)
  | result (r : PollResult)
deriving DecidableEq, Repr

/-- `waitfor(params, cb)` from `machines/waitfor.js`: rejects a missing
(falsy) `params.state`; lower-cases the desired state and accepts only
`ready`, `serviceready`, `off`; then runs the poll loop.  The `Nat` is
the number of remote queries issued, the `List Nat` the delays between
them. -/
def waitfor (state : Option String) (responses : List QueryResponse) :
    WaitforOutcome × Nat × List Nat :=
  match state with
  | none => (.invalidInput "Missing required parameter state", 0, [])
  | some st =>
    if st = "" then (.invalidInput "Missing required parameter state", 0, [])
    else if toLowerCase st = "ready" ∨ toLowerCase st = "serviceready" ∨
        toLowerCase st = "off" then
      (.result (waitforLoop (toLowerCase st) responses).1,
        (waitforLoop (toLowerCase st) responses).2)
    else (.invalidInput "state must be either off, serviceready, or ready", 0, [])

/-! ## Directory sizing (`directorySize` in `lib/jobs/create.js`)

A directory tree is modelled with each entry carrying the byte size that
`fs.stat` reports for it (directories report their own on-disk inode
size, which `directorySize` adds via `size += stat.size` before the
`isDirectory` branch). -/

/-- A filesystem entry as seen by `fs.stat`/`fs.readdir`: a file with its
size, or a directory with its own stat size and its children. -/
inductive FSEntry where
  | file (name : String) (size : Nat)
  | dir (name : String) (size : Nat) (children : List FSEntry)
deriving Repr

/-- The name test at the top of `directorySize`:
`if (name === '.git' || name === '.gitignore')` — contribute zero and do
not recurse. -/
def excludedName (name : String) : Bool :=
  name = ".git" || name = ".gitignore"

mutual

/-- `directorySize(_path, cb, size)`: zero for an excluded basename;
otherwise the entry's own `stat.size`, plus, for a directory, the sum of
the recursive sizes of all entries `fs.readdir` lists
(`async.map(...)` then `sizes.reduce((a, b) => a + b, 0)`). -/
def directorySize : FSEntry → Nat
  | .file n sz => if excludedName n then 0 else sz
  | .dir n sz cs => if excludedName n then 0 else sz + directorySizeList cs

/-- The `async.map` + `reduce` over a directory's children. -/
def directorySizeList : List FSEntry → Nat
  | [] => 0
  | c :: cs => directorySize c + directorySizeList cs

end

mutual

/-- Modelled from the spec: "the sum of the sizes of all files in T whose
names are not in the exclusion set (.git, .gitignore), recursively" —
files only, directory entries contributing nothing of their own. -/
def specFileSum : FSEntry → Nat
  | .file n sz => if excludedName n then 0 else sz
  | .dir n _ cs => if excludedName n then 0 else specFileSumList cs

/-- Child sum for `specFileSum`. -/
def specFileSumList : List FSEntry → Nat
  | [] => 0
  | c :: cs => specFileSum c + specFileSumList cs

end

mutual

/-- The stat sizes of the non-excluded *directory* entries of a tree —
the part of `directorySize` beyond the spec's file-size sum. -/
def dirOwnSizes : FSEntry → Nat
  | .file _ _ => 0
  | .dir n sz cs => if excludedName n then 0 else sz + dirOwnSizesList cs

/-- Child sum for `dirOwnSizes`. -/
def dirOwnSizesList : List FSEntry → Nat
  | [] => 0
  | c :: cs => dirOwnSizes c + dirOwnSizesList cs

end

/-! ## Exclusion predicates: sizing walk vs archive glob (C7)

Relative paths under the workspace root are modelled as their non-empty
lists of components. -/

/-- Whether the recursive sizing walk contributes zero for the entry at
relative path `p`: `directorySize` tests the basename of every node it
visits, so the entry is skipped exactly when some component on the walk
is named `.git` or `.gitignore` (the walk prunes whole subtrees). -/
def sizeWalkExcludes (p : List String) : Bool :=
  p.any excludedName

/-- Glob ignore pattern `**/.git/**`: a `.git` component followed by at
least one more component. -/
def matchesDotGitDeep (p : List String) : Bool :=
  p.dropLast.any (· = ".git")

/-- Glob ignore pattern `**/.git`: the final component is `.git`. -/
def matchesDotGit (p : List String) : Bool :=
  p.getLastD "" = ".git"

/-- Glob ignore pattern `**/.gitignore`: the final component is
`.gitignore`. -/
def matchesDotGitignore (p : List String) : Bool :=
  p.getLastD "" = ".gitignore"

/-- The archive builder's exclusion:
`ignore: ['**/.git/**', '**/.git', '**/.gitignore']` in
`archive.glob('**/*', ...)`. -/
def globExcludes (p : List String) : Bool :=
  matchesDotGitDeep p || matchesDotGit p || matchesDotGitignore p

/-! ## Archive entries and event handlers (`zipFunc`) -/

/-- `path.basename`: the last component of a path. -/
def basename (p : List String) : String := p.getLastD ""

/-- The entries `zipFunc` queues into the archive.  For a directory
workspace, `archive.glob('**/*', { cwd, ignore, dot: true }, false)`
includes every relative path of the tree (`dot: true`: hidden entries
too) except those matching the ignore patterns; for a single file,
`archive.file(params.workspace, { name: basename })` queues exactly one
entry under the file's base name. -/
def zipEntries (workspace : List String) (isDirectory : Bool)
    (tree : List (List String)) : List (List String) :=
  if isDirectory then tree.filter (fun p => !globExcludes p)
  else [[basename workspace]]

/-- What an archiver event handler in `zipFunc` does. -/
inductive HandlerAction where
  /-- `console.error(...)` only; archiving continues, the callback is
  never invoked with the error. -/
  | logAndContinue
  /-- `throw err;` — an exception, not an error-first callback. -/
  | throwException
  /-- `cb(err)` — error-first delivery to the caller. -/
  | callbackError
deriving DecidableEq, Repr

/-- `archive.on('warning', ...)`: `ENOENT` is logged (`console.error`)
and skipped; any other warning is re-thrown. -/
def archiveWarningHandler (code : String) : HandlerAction :=
  if code = "ENOENT" then .logAndContinue else .throwException

/-- `archive.on('error', ...)`: `console.error('Error while zipping: ',
err)` — the error is only logged; archiving is not aborted through the
callback. -/
def archiveErrorHandler (_e : String) : HandlerAction :=
  .logAndContinue

/-! ## Upload size gate (C1) -/

/-- `var MAX_UPLOAD_SIZE = 104857600; // 100MB` -/
def MAX_UPLOAD_SIZE : Nat := 104857600

/-- Steps of the upload path of `create` that the gate claims order. -/
inductive CreateStep where
  /-- `getFilesizeInBytes(zip_file) > MAX_UPLOAD_SIZE` evaluated. -/
  | sizeCheck (bytes : Nat)
  /-- the oversized-workspace error handed to `ifCliPrintErrorOnly`. -/
  | sizeError
  /-- `method(create, params, ...)` — the remote invocation. -/
  | invokeRemote
deriving DecidableEq, Repr

/-- The `output.on('close', ...)` handler of `zipFunc`, and equally the
pre-existing zip/gzip branch of `create`: stat the artifact, fail if it
exceeds `MAX_UPLOAD_SIZE`, otherwise call `method(create, ...)`. -/
def uploadGate (bytes : Nat) : List CreateStep :=
  if bytes > MAX_UPLOAD_SIZE then [.sizeCheck bytes, .sizeError]
  else [.sizeCheck bytes, .invokeRemote]

/-! ## Home-directory expansion (`expandHomeDir`)

JavaScript strings are modelled as character lists so that `slice` is
`List.take`/`List.drop`; the argument is an `Option` so that an
`undefined` input (falsy, returned unchanged) is representable. -/

/-- `path.join(homedir, rest)` as used on the `~/`-stripped remainder. -/
def pathJoin (a b : List Char) : List Char :=
  if b = [] then a else a ++ '/' :: b

/-- `expandHomeDir(pathIn)` from `lib/jobs/create.js`:
`if (!pathIn) return pathIn; if (pathIn == '~') return homedir;
if (pathIn.slice(0, 2) !== '~/') return pathIn;
return path.join(homedir, pathIn.slice(2));` -/
def expandHomeDir (homedir : List Char) :
    Option (List Char) → Option (List Char)
  | none => none
  | some p =>
    if p = [] then some p
    else if p = ['~'] then some homedir
    else if p.take 2 ≠ ['~', '/'] then some p
    else some (pathJoin homedir (p.drop 2))

/-! ## Helper lemmas -/

/-- The child fold of `directorySize` is the sum of the children's
sizes. -/
theorem directorySizeList_eq_map_sum (cs : List FSEntry) :
    directorySizeList cs = (cs.map directorySize).sum := by
  induction cs with
  | nil => simp [directorySizeList]
  | cons c cs ih => simp [directorySizeList, ih]

/-- Reordering a directory listing does not change the child fold. -/
theorem directorySizeList_perm {cs cs' : List FSEntry} (h : cs.Perm cs') :
    directorySizeList cs = directorySizeList cs' := by
  rw [directorySizeList_eq_map_sum, directorySizeList_eq_map_sum]
  exact (h.map directorySize).sum_eq

/-- Unfolding `waitfor` on a non-empty desired state whose lower-casing
is legal: validation passes and the poll loop runs on the lower-cased
target. -/
theorem waitfor_valid (st : String) (rs : List QueryResponse)
    (hne : st ≠ "")
    (hv : toLowerCase st = "ready" ∨ toLowerCase st = "serviceready" ∨
      toLowerCase st = "off") :
    waitfor (some st) rs =
      (.result (waitforLoop (toLowerCase st) rs).1,
        (waitforLoop (toLowerCase st) rs).2) := by
  unfold waitfor
  dsimp only
  rw [if_neg hne, if_pos hv]

mutual

/-- `directorySize` splits into the spec's file-size sum plus the stat
sizes of the non-excluded directory entries. -/
theorem directorySize_decomp :
    ∀ t : FSEntry, directorySize t = specFileSum t + dirOwnSizes t
  | .file n sz => by
    cases h : excludedName n <;>
      simp [directorySize, specFileSum, dirOwnSizes, h]
  | .dir n sz cs => by
    have ih := directorySizeList_decomp cs
    cases h : excludedName n
    · simp [directorySize, specFileSum, dirOwnSizes, h, ih]
      omega
    · simp [directorySize, specFileSum, dirOwnSizes, h]

/-- List version of `directorySize_decomp`. -/
theorem directorySizeList_decomp :
    ∀ cs : List FSEntry,
      directorySizeList cs = specFileSumList cs + dirOwnSizesList cs
  | [] => by simp [directorySizeList, specFileSumList, dirOwnSizesList]
  | c :: cs => by
    have ih1 := directorySize_decomp c
    have ih2 := directorySizeList_decomp cs
    simp [directorySizeList, specFileSumList, dirOwnSizesList, ih1, ih2]
    omega

end

/-! ## Claims -/

/-- C1: the upload size gate lets an artifact through to the remote
invocation if and only if its byte size is at most `MAX_UPLOAD_SIZE`
(104,857,600 bytes; equality accepted), an oversized artifact produces
only the size check and the error (no remote invocation anywhere in the
step trace), and the size check is always the first step of the trace —
before any remote invocation is attempted. -/
theorem C1_upload_size_gate (bytes : Nat) :
    (MAX_UPLOAD_SIZE < bytes →
      uploadGate bytes = [.sizeCheck bytes, .sizeError]) ∧
    (bytes ≤ MAX_UPLOAD_SIZE →
      uploadGate bytes = [.sizeCheck bytes, .invokeRemote]) ∧
    (CreateStep.invokeRemote ∈ uploadGate bytes ↔ bytes ≤ MAX_UPLOAD_SIZE) ∧
    (uploadGate bytes).head? = some (.sizeCheck bytes) := by
  by_cases h : MAX_UPLOAD_SIZE < bytes
  · refine ⟨fun _ => by simp [uploadGate, h], fun h' => absurd h (by omega), ?_, ?_⟩
    · simp [uploadGate, h]
    · simp [uploadGate, h]
  · refine ⟨fun h' => absurd h' h, fun _ => by simp [uploadGate, h], ?_, ?_⟩
    · simp [uploadGate, h]
      omega
    · simp [uploadGate, h]

/-- Witness for C1: an artifact of exactly 104,857,600 bytes passes the
gate and reaches the remote invocation; one of 104,857,601 bytes is
rejected without any remote invocation step. -/
theorem C1_upload_size_gate_witness :
    uploadGate 104857600 = [.sizeCheck 104857600, .invokeRemote] ∧
    uploadGate 104857601 = [.sizeCheck 104857601, .sizeError] :=
  ⟨(C1_upload_size_gate 104857600).2.1 (by decide),
   (C1_upload_size_gate 104857601).1 (by decide)⟩

/-- C2 counterexample: on a directory whose own `fs.stat` size is 4096
and which holds one 10-byte file, `directorySize` returns 4106 — not the
10 that the sum of the (non-excluded) file sizes would give, because the
code adds `stat.size` for directory entries as well. -/
theorem C2_counterexample :
    directorySize (FSEntry.dir "w" 4096 [.file "a" 10]) = 4106 ∧
    specFileSum (FSEntry.dir "w" 4096 [.file "a" 10]) = 10 ∧
    directorySize (FSEntry.dir "w" 4096 [.file "a" 10]) ≠
      specFileSum (FSEntry.dir "w" 4096 [.file "a" 10]) := by
  refine ⟨?_, ?_, ?_⟩ <;>
    simp [directorySize, directorySizeList, specFileSum, specFileSumList,
      excludedName]

/-- C2 (amended): the size computation returns the sum of the sizes of
all non-excluded files *plus* the `fs.stat` sizes of all non-excluded
directory entries (the code adds `size += stat.size` before branching on
`isDirectory`), and the result is independent of the order in which a
directory's entries are traversed. -/
theorem C2_directorySize_amended :
    (∀ t : FSEntry, directorySize t = specFileSum t + dirOwnSizes t) ∧
    (∀ (n : String) (sz : Nat) (cs cs' : List FSEntry), cs.Perm cs' →
      directorySize (.dir n sz cs) = directorySize (.dir n sz cs')) := by
  refine ⟨directorySize_decomp, fun n sz cs cs' h => ?_⟩
  simp [directorySize, directorySizeList_perm h]

/-- Witness for C2 (amended): the decomposition at a concrete tree, and
traversal-order independence for a concrete two-entry directory. -/
theorem C2_directorySize_amended_witness :
    directorySize (FSEntry.dir "w" 4096 [.file "a" 10]) =
      specFileSum (FSEntry.dir "w" 4096 [.file "a" 10]) +
        dirOwnSizes (FSEntry.dir "w" 4096 [.file "a" 10]) ∧
    directorySize (FSEntry.dir "w" 1 [.file "a" 10, .file "b" 20]) =
      directorySize (FSEntry.dir "w" 1 [.file "b" 20, .file "a" 10]) :=
  ⟨C2_directorySize_amended.1 _,
   C2_directorySize_amended.2 "w" 1 _ _ (List.Perm.swap _ _ _)⟩

/-- C3 counterexample: with desired state `off` and a queried record in
state `Off` — case-insensitively equal — the poller does *not* terminate
with the record; it schedules another query after one interval, because
`machine.state === targetState` compares the raw record state against
the lower-cased desired state. -/
theorem C3_counterexample :
    waitfor (some "off") [.ok ⟨"m1", "Off"⟩] =
      (.result .pending, 1, [INTERVAL]) ∧
    toLowerCase "Off" = toLowerCase "off" := by
  exact ⟨rfl, by decide⟩

/-- C3 (amended): the poller lower-cases only the desired state: it
terminates with the record exactly when the queried state equals the
lower-cased desired state (the record's state is compared
case-sensitively), and otherwise schedules another query after the
interval. -/
theorem C3_match_lowercased_desired (st : String) (m : Machine)
    (rest : List QueryResponse) (hne : st ≠ "")
    (hv : toLowerCase st = "ready" ∨ toLowerCase st = "serviceready" ∨
      toLowerCase st = "off") :
    (m.state = toLowerCase st →
      waitfor (some st) (.ok m :: rest) = (.result (.matched m), 1, [])) ∧
    (m.state ≠ toLowerCase st →
      waitfor (some st) (.ok m :: rest) =
        (.result (waitforLoop (toLowerCase st) rest).1,
          (waitforLoop (toLowerCase st) rest).2.1 + 1,
          INTERVAL :: (waitforLoop (toLowerCase st) rest).2.2)) := by
  rw [waitfor_valid st (.ok m :: rest) hne hv]
  constructor <;> intro h <;> simp [waitforLoop, h]

/-- Witness for C3 (amended): desired `Off` is lower-cased and matches a
record in state `off` at once; a record in state `OFF` does not match
and a retry is scheduled. -/
theorem C3_match_lowercased_desired_witness :
    waitfor (some "Off") [.ok ⟨"m1", "off"⟩] =
      (.result (.matched ⟨"m1", "off"⟩), 1, []) ∧
    waitfor (some "Off") [.ok ⟨"m1", "OFF"⟩] =
      (.result (waitforLoop "off" []).1, (waitforLoop "off" []).2.1 + 1,
        INTERVAL :: (waitforLoop "off" []).2.2) :=
  ⟨(C3_match_lowercased_desired "Off" ⟨"m1", "off"⟩ [] (by decide)
      (by decide)).1 (by decide),
   (C3_match_lowercased_desired "Off" ⟨"m1", "OFF"⟩ [] (by decide)
      (by decide)).2 (by decide)⟩

/-- C4: a desired state whose lower-casing is outside the legal set
{`off`, `serviceready`, `ready`} makes the poller fail immediately with
an input error: for every response trace, zero queries are issued and no
retry is ever scheduled. -/
theorem C4_invalid_desired_state (s : String)
    (responses : List QueryResponse)
    (h : toLowerCase s ∉ (["off", "serviceready", "ready"] : List String)) :
    (∃ msg, (waitfor (some s) responses).1 = .invalidInput msg) ∧
    (waitfor (some s) responses).2.1 = 0 ∧
    (waitfor (some s) responses).2.2 = [] := by
  have hv : ¬(toLowerCase s = "ready" ∨ toLowerCase s = "serviceready" ∨
      toLowerCase s = "off") := by
    simp only [List.mem_cons, List.not_mem_nil, or_false] at h
    tauto
  by_cases hne : s = ""
  · subst hne
    exact ⟨⟨_, rfl⟩, rfl, rfl⟩
  · unfold waitfor
    dsimp only
    rw [if_neg hne, if_neg hv]
    exact ⟨⟨_, rfl⟩, rfl, rfl⟩

/-- Witness for C4: desired state `restarting` is rejected with zero
queries even though the transport had responses to give. -/
theorem C4_invalid_desired_state_witness :
    (∃ msg, (waitfor (some "restarting")
      [.ok ⟨"m1", "restarting"⟩]).1 = .invalidInput msg) ∧
    (waitfor (some "restarting") [.ok ⟨"m1", "restarting"⟩]).2.1 = 0 ∧
    (waitfor (some "restarting") [.ok ⟨"m1", "restarting"⟩]).2.2 = [] :=
  C4_invalid_desired_state "restarting" [.ok ⟨"m1", "restarting"⟩]
    (by decide)

/-- C5: if every response before a transport error reports a
non-matching state, the poll loop propagates the error immediately: the
run errors out, exactly one query more than the non-matching prefix is
issued — nothing after the failure is ever queried, whatever the rest of
the trace holds — and only the successful non-matching responses caused
retries (one interval each). -/
theorem C5_transport_error_stops_polling (target : String)
    (ms : List Machine) (e : String) (rest : List QueryResponse)
    (h : ∀ m ∈ ms, m.state ≠ target) :
    waitforLoop target (ms.map .ok ++ .fail e :: rest) =
      (.errored e, ms.length + 1, List.replicate ms.length INTERVAL) := by
  induction ms with
  | nil => simp [waitforLoop]
  | cons m ms ih =>
    have hm : m.state ≠ target := h m (by simp)
    have ih' := ih (fun m' hm' => h m' (by simp [hm']))
    simp [waitforLoop, hm, ih', List.replicate_succ]

/-- Witness for C5: one non-matching response, then a transport error:
the error surfaces after exactly two queries and the trailing matching
response is never queried. -/
theorem C5_transport_error_stops_polling_witness :
    waitforLoop "off" ([⟨"m1", "starting"⟩].map QueryResponse.ok ++
      QueryResponse.fail "ECONNRESET" :: [.ok ⟨"m1", "off"⟩]) =
      (.errored "ECONNRESET", 2, [INTERVAL]) :=
  C5_transport_error_stops_polling "off" [⟨"m1", "starting"⟩]
    "ECONNRESET" [.ok ⟨"m1", "off"⟩] (by decide)

/-- C8 counterexample: an archiver stream `error` event is handled by
`console.error` alone — it is not surfaced to the caller through the
error-first callback (and does not abort the operation through it). -/
theorem C8_counterexample :
    archiveErrorHandler "EACCES: permission denied, write" =
      .logAndContinue ∧
    archiveErrorHandler "EACCES: permission denied, write" ≠
      .callbackError := by
  exact ⟨rfl, by decide⟩

/-- C8 (amended): an `ENOENT` warning is logged and skipped without
aborting; a non-`ENOENT` warning is re-thrown as an exception (aborting,
but not via the callback); a stream `error` event is only logged to the
console — no archiving failure is delivered through the error-first
callback by these handlers. -/
theorem C8_archive_event_handling (code e : String)
    (hc : code ≠ "ENOENT") :
    archiveWarningHandler "ENOENT" = .logAndContinue ∧
    archiveWarningHandler code = .throwException ∧
    archiveErrorHandler e = .logAndContinue ∧
    archiveErrorHandler e ≠ .callbackError ∧
    archiveWarningHandler code ≠ .callbackError := by
  refine ⟨rfl, ?_, rfl, ?_, ?_⟩ <;>
    simp [archiveWarningHandler, archiveErrorHandler, hc]

/-- Witness for C8 (amended): concrete `EPIPE` warning and stream error. -/
theorem C8_archive_event_handling_witness :
    archiveWarningHandler "ENOENT" = .logAndContinue ∧
    archiveWarningHandler "EPIPE" = .throwException ∧
    archiveErrorHandler "write EPIPE" = .logAndContinue ∧
    archiveErrorHandler "write EPIPE" ≠ .callbackError ∧
    archiveWarningHandler "EPIPE" ≠ .callbackError :=
  C8_archive_event_handling "EPIPE" "write EPIPE" (by decide)

/-- C6: polling for state `off` against a transport that answers
`{state: "starting"}` and then `{state: "off"}` resolves with the second
record, issues exactly two sequential queries, and separates them by one
interval of `INTERVAL = 5000` ms. -/
theorem C6_two_query_poll :
    waitfor (some "off") [.ok ⟨"m1", "starting"⟩, .ok ⟨"m1", "off"⟩] =
      (.result (.matched ⟨"m1", "off"⟩), 2, [INTERVAL]) ∧
    INTERVAL = 5000 := by
  exact ⟨rfl, rfl⟩

/-- C7: the sizing walk's exclusion and the archiver's glob exclusion
disagree on the relative path `.gitignore/foo` (a file inside a
directory named `.gitignore`): the walk prunes it, the glob ignore
patterns do not match it, so the archiver keeps it. -/
theorem C7_exclusion_divergence :
    sizeWalkExcludes [".gitignore", "foo"] ≠
      globExcludes [".gitignore", "foo"] ∧
    sizeWalkExcludes [".gitignore", "foo"] = true ∧
    globExcludes [".gitignore", "foo"] = false := by
  refine ⟨?_, ?_, ?_⟩ <;> decide

/-- C9: archiving a single (non-directory) workspace file queues exactly
one archive entry, named by the file's base name, and that name is a
single path component — no parent directory components. -/
theorem C9_single_file_entry (workspace : List String)
    (tree : List (List String)) :
    zipEntries workspace false tree = [[basename workspace]] ∧
    (zipEntries workspace false tree).length = 1 ∧
    ([basename workspace] : List String).length = 1 := by
  refine ⟨rfl, rfl, rfl⟩

/-- C10: home-directory expansion returns `undefined` and the empty
string unchanged, maps `~` to the home directory, replaces a leading
`~/` by the home directory joined with the remainder, and returns any
other input (such as `~user`) unchanged. -/
theorem C10_expandHomeDir_cases (home : List Char) :
    expandHomeDir home none = none ∧
    expandHomeDir home (some []) = some [] ∧
    expandHomeDir home (some ['~']) = some home ∧
    (∀ rest : List Char,
      expandHomeDir home (some ('~' :: '/' :: rest)) =
        some (pathJoin home rest)) ∧
    (∀ p : List Char, p ≠ ['~'] → p.take 2 ≠ ['~', '/'] →
      expandHomeDir home (some p) = some p) := by
  refine ⟨rfl, rfl, rfl, fun rest => ?_, fun p h1 h2 => ?_⟩
  · simp [expandHomeDir, pathJoin]
  · by_cases hnil : p = []
    · simp [expandHomeDir, hnil]
    · simp [expandHomeDir, hnil, h1, h2]

/-- Witness for C10: `~user` does not begin with `~/` and is returned
unchanged. -/
theorem C10_expandHomeDir_witness :
    expandHomeDir "/home/u".data (some "~user".data) = some "~user".data :=
  (C10_expandHomeDir_cases "/home/u".data).2.2.2.2 "~user".data
    (by decide) (by decide)

end Paperspace
